import Mathlib

/-!
Verification development for the drift scheduler (crates/drift/src/lib.rs).

The library schedules recurring work on a tokio runtime.  Two background
loops exist:

* `schedule_drifter` (interval mode): starts with `wait = Duration::default()`
  (zero), and each tick races `cancellation_token.cancelled()` against
  `time::sleep(wait)` in a `tokio::select!`.  When the sleep wins it runs the
  drifter, measures `elapsed`, and sets
  `wait = interval.saturating_sub(elapsed)`; on an execution error it does the
  same and continues.  On the success path it additionally converts the new
  wait with `TimeDelta::from_std(wait).expect(..)` for a log line.

* `schedule_drifter_cron` (cron mode): parses the cron expression first
  (returning the parse error synchronously), then spawns a loop that pops
  successive fire instants; an instant whose difference from `Utc::now()` is
  not positive is skipped with a log message, otherwise the loop converts the
  difference with `diff.to_std().expect(..)`, sleeps until the instant racing
  cancellation, and runs the drifter.

Durations are modelled as natural numbers of nanoseconds and absolute instants
as integers (nanoseconds since an epoch).  The nondeterminism of the runtime
(when the caller requests cancellation, how long an execution takes, whether
it fails, and how a `tokio::select!` tie between two simultaneously ready
branches is resolved) is supplied by per-tick environment records, so each
loop is a computable function from its environment to the trace of events it
emits together with the final cancelled state of the root token.
-/

/-- Largest `chrono::TimeDelta` in nanoseconds: `i64::MAX` milliseconds, the
bound checked by `TimeDelta::from_std`. -/
def maxTimeDeltaNs : Nat := 9223372036854775807 * 1000000

/-- Model of `chrono::TimeDelta::from_std`: converts a std duration (Nat
nanoseconds) to a time delta, failing when it exceeds `TimeDelta::MAX`.
Used by the interval loop at lib.rs:145 via `.expect(..)`. -/
def timeDeltaFromStd (ns : Nat) : Option Int :=
  if ns ≤ maxTimeDeltaNs then some (Int.ofNat ns) else none

/-- Model of `chrono::TimeDelta::to_std`: converts a time delta to a std
duration, failing exactly when the delta is negative.  Used by the cron loop
at lib.rs:68 via `.expect(..)`. -/
def timeDeltaToStd (d : Int) : Option Nat :=
  if d < 0 then none else some d.toNat

/-- The wait computed after a tick in interval mode, lib.rs:136 and lib.rs:142:
`interval.saturating_sub(elapsed)`.  Nat subtraction is saturating. -/
def nextWait (intervalNs elapsedNs : Nat) : Nat :=
  intervalNs - elapsedNs

/-- At which point inside a tick the caller requests cancellation of the root
token (if at all during this tick). -/
inductive CancelPoint
  | duringSleep
  | duringExec
  deriving DecidableEq, Repr

/-- Environment of one interval-mode tick: whether and when the caller cancels
during this tick, how a ready-ready tie in the `tokio::select!` is resolved,
and the outcome and duration of the drifter execution. -/
structure TickEnv where
  cancelHere : Option CancelPoint
  tieToCancel : Bool
  execFails : Bool
  elapsedNs : Nat
  deriving DecidableEq, Repr

/-- Events emitted by the interval loop.  `tickStart w` records that the sleep
of length `w` elapsed and the execution call began; `execEnd ok e` that the
execution call returned (`ok` = succeeded) after `e` nanoseconds; `stopped`
that cancellation was observed and the loop exited; `panicked` that the
`TimeDelta::from_std(..).expect(..)` at lib.rs:145 aborted the task. -/
inductive IEvent
  | tickStart (waitNs : Nat)
  | execEnd (ok : Bool) (elapsedNs : Nat)
  | stopped
  | panicked
  deriving DecidableEq, Repr

/-- Resolution of the `tokio::select!` at lib.rs:124: the cancellation branch
is taken iff it is observed first.  If cancellation was already requested and
the wait is positive, `cancelled()` is ready at the first poll while the sleep
is not, so cancellation deterministically wins; if the wait is zero both
branches are ready at the first poll and the unbiased select picks a branch at
random (`tieToCancel`).  If cancellation is first requested during a positive
sleep, `cancelled()` resolves before the sleep and wins; a request arriving
at a zero-length sleep is only seen by the next select. -/
def selectCancelObserved (cancelRequested : Bool) (wait : Nat) (e : TickEnv) : Bool :=
  if cancelRequested then
    if wait = 0 then e.tieToCancel else true
  else
    match e.cancelHere with
    | some CancelPoint.duringSleep => if wait = 0 then false else true
    | _ => false

/-- The interval-mode loop body of `schedule_drifter`, lib.rs:119-151, run
against a finite list of tick environments (the observation horizon).
Arguments: whether cancellation has been requested so far, the current wait,
and the remaining environments.  Returns the emitted trace and the final
cancel-requested state of the root token. -/
def intervalRun (intervalNs : Nat) : Bool → Nat → List TickEnv → List IEvent × Bool
  | c, _, [] => ([], c)
  | c, w, e :: rest =>
    if selectCancelObserved c w e then
      ([IEvent.stopped], true)
    else
      let c2 := c || e.cancelHere.isSome
      if e.execFails then
        let next := intervalRun intervalNs c2 (nextWait intervalNs e.elapsedNs) rest
        (IEvent.tickStart w :: IEvent.execEnd false e.elapsedNs :: next.1, next.2)
      else
        match timeDeltaFromStd (nextWait intervalNs e.elapsedNs) with
        | none =>
            ([IEvent.tickStart w, IEvent.execEnd true e.elapsedNs, IEvent.panicked], c2)
        | some _ =>
            let next := intervalRun intervalNs c2 (nextWait intervalNs e.elapsedNs) rest
            (IEvent.tickStart w :: IEvent.execEnd true e.elapsedNs :: next.1, next.2)

/-- The spawned task of `schedule_drifter` starts with
`let mut wait = Duration::default();` (lib.rs:117), i.e. a zero first wait. -/
def intervalLoop (intervalNs : Nat) (cancelRequestedAtStart : Bool)
    (envs : List TickEnv) : List IEvent × Bool :=
  intervalRun intervalNs cancelRequestedAtStart 0 envs

/-- Environment of one cron-mode loop iteration: the value of `Utc::now()`
when the instant is popped, cancellation requests, and the execution outcome. -/
structure CronTickEnv where
  nowNs : Int
  cancelHere : Option CancelPoint
  execFails : Bool
  elapsedNs : Nat
  deriving DecidableEq, Repr

/-- Events emitted by the cron loop.  `skippedPast d` records the
skip-with-log of an instant that was not in the future (lib.rs:59-66). -/
inductive CEvent
  | skippedPast (instantNs : Int)
  | tickStart (instantNs : Int)
  | execEnd (ok : Bool) (elapsedNs : Nat)
  | stopped
  | panicked
  deriving DecidableEq, Repr

/-- Resolution of the `tokio::select!` at lib.rs:78 in cron mode.  The sleep
duration there is always positive (instants with a non-positive difference
were skipped), so a requested cancellation is always observed: no tie. -/
def cronSelectCancelObserved (cancelRequested : Bool) (e : CronTickEnv) : Bool :=
  cancelRequested || (e.cancelHere == some CancelPoint.duringSleep)

/-- The cron-mode loop body of `schedule_drifter_cron`, lib.rs:52-100: iterate
over the (here: finite) list of upcoming fire instants with one environment
record per popped instant.  Returns the emitted trace and the final
cancel-requested state of the root token.  When the instant list is exhausted
the `for` loop simply ends: no event, no cancellation of the root token. -/
def cronRun (cancelRequested : Bool) : List Int → List CronTickEnv → List CEvent × Bool
  | [], _ => ([], cancelRequested)
  | _ :: _, [] => ([], cancelRequested)
  | d :: ds, e :: es =>
    let diff : Int := d - e.nowNs
    if diff ≤ 0 then
      let next := cronRun (cancelRequested || e.cancelHere.isSome) ds es
      (CEvent.skippedPast d :: next.1, next.2)
    else
      match timeDeltaToStd diff with
      | none => ([CEvent.panicked], cancelRequested)
      | some _ =>
        if cronSelectCancelObserved cancelRequested e then
          ([CEvent.stopped], true)
        else
          let next := cronRun (cancelRequested || e.cancelHere.isSome) ds es
          (CEvent.tickStart d :: CEvent.execEnd (!e.execFails) e.elapsedNs :: next.1, next.2)

/-- Error type of the external cron crate's `Schedule::from_str`, abstracted. -/
inductive ParseError
  | invalidExpr
  deriving DecidableEq, Repr

/-- A parsed cron schedule: `schedule.upcoming(Utc)` as the stream of upcoming
fire instants (modelled as a finite list of nanosecond timestamps). -/
structure CronSched where
  instants : List Int
  deriving DecidableEq, Repr

/-- Observable effects of a scheduling entry point: each `tokio::spawn` of a
background loop, tagged with the data the loop captures. -/
inductive Effect
  | spawnCronLoop (instants : List Int)
  | spawnIntervalLoop (intervalNs : Nat)
  deriving DecidableEq, Repr

/-- The root cancellation token handed back to the caller, freshly created by
`CancellationToken::new()`, hence initially not cancelled. -/
structure RootToken where
  is_cancelled : Bool
  deriving DecidableEq, Repr

/-- Entry point `schedule_drifter_cron`, lib.rs:35-104: parse the cron
expression first (`Schedule::from_str(cron)?` at lib.rs:43) — on a parse
error return it synchronously, before anything is spawned — then create the
root token, spawn the cron loop capturing the parsed upcoming instants, and
return the token.  The parser is the external cron crate, abstracted as a
parameter. -/
def schedule_drifter_cron (parse : String → Except ParseError CronSched)
    (cron : String) : List Effect × Except ParseError RootToken :=
  match parse cron with
  | Except.error err => ([], Except.error err)
  | Except.ok s =>
      ([Effect.spawnCronLoop s.instants], Except.ok { is_cancelled := false })

/-- Entry point `schedule_drifter`, lib.rs:105-156: create the root token,
spawn the interval loop, and return the token.  Its return type carries no
error: interval schedule creation cannot fail. -/
def schedule_drifter (intervalNs : Nat) : List Effect × RootToken :=
  ([Effect.spawnIntervalLoop intervalNs], { is_cancelled := false })

/-- Entry point `schedule`, lib.rs:15-23: wraps the callable in a
`FuncDrifter` and defers to `schedule_drifter`. -/
def schedule (intervalNs : Nat) : List Effect × RootToken :=
  schedule_drifter intervalNs

/-- Entry point `schedule_cron`, lib.rs:25-33: wraps the callable in a
`FuncDrifter` and defers to `schedule_drifter_cron`. -/
def schedule_cron (parse : String → Except ParseError CronSched)
    (cron : String) : List Effect × Except ParseError RootToken :=
  schedule_drifter_cron parse cron

/-- A concrete stand-in for the external cron crate parser, used to evaluate
the entry points on concrete inputs: accepts exactly the every-second
expression used by the repository tests (lib.rs:319) and rejects everything
else. -/
def parseModel (s : String) : Except ParseError CronSched :=
  if s = "* * * * * *" then Except.ok { instants := [1000000000] }
  else Except.error ParseError.invalidExpr

namespace CancellationToken

/-- Modelled from the spec: the hierarchical `CancellationToken` used at
lib.rs:45, 54, 88, 110 and 120 is implemented by the external tokio_util
crate, so its implementation is not under src; spec section 4.1 gives its
contract (a tree of tokens where `cancel` cascades to all current and future
descendants, never upward, and the cancelled state is monotonic).  A token is
identified by its path of child indices from its root; the shared state of a
token tree records every path on which `cancel` was called. -/
def State := List (List Nat)

/-- Modelled from the spec: `child_token()` derives the i-th child of a
token. -/
def child_token (p : List Nat) (i : Nat) : List Nat := p ++ [i]

/-- Modelled from the spec: `cancel()` marks this token as
cancellation-requested (idempotent; cascades via `is_cancelled`). -/
def cancel (s : State) (p : List Nat) : State := p :: s

/-- Whether the token at the first path is the token at the second path or
one of its ancestors. -/
def isAncestorOf : List Nat → List Nat → Bool
  | [], _ => true
  | _ :: _, [] => false
  | a :: l1, b :: l2 => a == b && isAncestorOf l1 l2

/-- Modelled from the spec: `is_cancelled()` — a token observes cancellation
iff `cancel` was called on it or on one of its ancestors. -/
def is_cancelled (s : State) (p : List Nat) : Bool :=
  s.any fun q => isAncestorOf q p

/-- A sequence of later `cancel` calls applied to a state. -/
def applyCancels (s : State) (ops : List (List Nat)) : State :=
  ops.foldl cancel s

end CancellationToken

/-- Nesting check for interval traces: `n` is the number of in-flight
executions; a tick may start only when none is in flight, and each start is
closed by exactly one end.  `wellNestedI 0 t = true` states that executions
in `t` are serialized: never more than one in flight. -/
def wellNestedI : Nat → List IEvent → Bool
  | _, [] => true
  | n, IEvent.tickStart _ :: rest => n == 0 && wellNestedI 1 rest
  | n, IEvent.execEnd _ _ :: rest => n == 1 && wellNestedI 0 rest
  | n, _ :: rest => wellNestedI n rest

/-- Nesting check for cron traces, as `wellNestedI`. -/
def wellNestedC : Nat → List CEvent → Bool
  | _, [] => true
  | n, CEvent.tickStart _ :: rest => n == 0 && wellNestedC 1 rest
  | n, CEvent.execEnd _ _ :: rest => n == 1 && wellNestedC 0 rest
  | n, _ :: rest => wellNestedC n rest

/-- Number of execution starts in an interval trace. -/
def countTickStartsI (t : List IEvent) : Nat :=
  t.countP fun ev =>
    match ev with
    | IEvent.tickStart _ => true
    | _ => false

theorem intervalRun_cons_observed (intervalNs : Nat) (c : Bool) (w : Nat)
    (e : TickEnv) (rest : List TickEnv) (h : selectCancelObserved c w e = true) :
    intervalRun intervalNs c w (e :: rest) = ([IEvent.stopped], true) := by
  simp [intervalRun, h]

theorem intervalRun_cons_fail (intervalNs : Nat) (c : Bool) (w : Nat)
    (e : TickEnv) (rest : List TickEnv) (hs : selectCancelObserved c w e = false)
    (hf : e.execFails = true) :
    intervalRun intervalNs c w (e :: rest) =
      (IEvent.tickStart w :: IEvent.execEnd false e.elapsedNs ::
        (intervalRun intervalNs (c || e.cancelHere.isSome)
          (nextWait intervalNs e.elapsedNs) rest).1,
       (intervalRun intervalNs (c || e.cancelHere.isSome)
          (nextWait intervalNs e.elapsedNs) rest).2) := by
  simp [intervalRun, hs, hf]

theorem intervalRun_cons_ok (intervalNs : Nat) (c : Bool) (w : Nat)
    (e : TickEnv) (rest : List TickEnv) (hs : selectCancelObserved c w e = false)
    (hf : e.execFails = false)
    (hc : nextWait intervalNs e.elapsedNs ≤ maxTimeDeltaNs) :
    intervalRun intervalNs c w (e :: rest) =
      (IEvent.tickStart w :: IEvent.execEnd true e.elapsedNs ::
        (intervalRun intervalNs (c || e.cancelHere.isSome)
          (nextWait intervalNs e.elapsedNs) rest).1,
       (intervalRun intervalNs (c || e.cancelHere.isSome)
          (nextWait intervalNs e.elapsedNs) rest).2) := by
  simp [intervalRun, hs, hf, timeDeltaFromStd, hc]

theorem intervalRun_cons_panic (intervalNs : Nat) (c : Bool) (w : Nat)
    (e : TickEnv) (rest : List TickEnv) (hs : selectCancelObserved c w e = false)
    (hf : e.execFails = false)
    (hc : maxTimeDeltaNs < nextWait intervalNs e.elapsedNs) :
    intervalRun intervalNs c w (e :: rest) =
      ([IEvent.tickStart w, IEvent.execEnd true e.elapsedNs, IEvent.panicked],
       c || e.cancelHere.isSome) := by
  simp [intervalRun, hs, hf, timeDeltaFromStd, Nat.not_le.mpr hc]

theorem cronRun_skip (c : Bool) (d : Int) (ds : List Int) (e : CronTickEnv)
    (es : List CronTickEnv) (h : d - e.nowNs ≤ 0) :
    cronRun c (d :: ds) (e :: es) =
      (CEvent.skippedPast d :: (cronRun (c || e.cancelHere.isSome) ds es).1,
       (cronRun (c || e.cancelHere.isSome) ds es).2) := by
  simp [cronRun, h]

theorem cronRun_future_stop (c : Bool) (d : Int) (ds : List Int) (e : CronTickEnv)
    (es : List CronTickEnv) (h : 0 < d - e.nowNs)
    (hobs : cronSelectCancelObserved c e = true) :
    cronRun c (d :: ds) (e :: es) = ([CEvent.stopped], true) := by
  have h1 : ¬ (d - e.nowNs ≤ 0) := not_le.mpr h
  have h2 : ¬ (d - e.nowNs < 0) := by omega
  simp [cronRun, h1, timeDeltaToStd, h2, hobs]

theorem cronRun_future_exec (c : Bool) (d : Int) (ds : List Int) (e : CronTickEnv)
    (es : List CronTickEnv) (h : 0 < d - e.nowNs)
    (hobs : cronSelectCancelObserved c e = false) :
    cronRun c (d :: ds) (e :: es) =
      (CEvent.tickStart d :: CEvent.execEnd (!e.execFails) e.elapsedNs ::
        (cronRun (c || e.cancelHere.isSome) ds es).1,
       (cronRun (c || e.cancelHere.isSome) ds es).2) := by
  have h1 : ¬ (d - e.nowNs ≤ 0) := not_le.mpr h
  have h2 : ¬ (d - e.nowNs < 0) := by omega
  simp [cronRun, h1, timeDeltaToStd, h2, hobs]

theorem selectCancelObserved_of_requested_pos (c : Bool) (w : Nat) (e : TickEnv)
    (hc : c = true) (hw : 0 < w) : selectCancelObserved c w e = true := by
  subst hc
  simp [selectCancelObserved, Nat.pos_iff_ne_zero.mp hw]

theorem selectCancelObserved_requested (c : Bool) (w : Nat) (e : TickEnv)
    (h : selectCancelObserved c w e = true) :
    c = true ∨ e.cancelHere.isSome = true := by
  cases hc : c
  · subst hc
    simp only [selectCancelObserved] at h
    cases hch : e.cancelHere with
    | none => simp [hch] at h
    | some pt =>
      cases pt <;> simp [hch] at h ⊢
  · exact Or.inl rfl

theorem cronSelectCancelObserved_requested (c : Bool) (e : CronTickEnv)
    (h : cronSelectCancelObserved c e = true) :
    c = true ∨ e.cancelHere.isSome = true := by
  simp only [cronSelectCancelObserved, Bool.or_eq_true, beq_iff_eq] at h
  rcases h with h | h
  · exact Or.inl h
  · right
    simp [h]

theorem intervalRun_cancel_only_requested (intervalNs : Nat) :
    ∀ (envs : List TickEnv) (c : Bool) (w : Nat),
      (intervalRun intervalNs c w envs).2 = true →
      c = true ∨ envs.any (fun e => e.cancelHere.isSome) = true := by
  intro envs
  induction envs with
  | nil => intro c w h; exact Or.inl h
  | cons e rest ih =>
    intro c w h
    have hpack : (c || e.cancelHere.isSome) = true ∨
        rest.any (fun x => x.cancelHere.isSome) = true →
        c = true ∨ (e :: rest).any (fun x => x.cancelHere.isSome) = true := by
      intro hor
      rcases hor with hor | hor
      · rcases Bool.or_eq_true_iff.mp hor with hh | hh
        · exact Or.inl hh
        · right
          simp [hh]
      · right
        simp [hor]
    cases hs : selectCancelObserved c w e
    · cases hf : e.execFails
      · rcases Nat.lt_or_ge maxTimeDeltaNs (nextWait intervalNs e.elapsedNs) with hc | hc
        · rw [intervalRun_cons_panic intervalNs c w e rest hs hf hc] at h
          exact hpack (Or.inl h)
        · rw [intervalRun_cons_ok intervalNs c w e rest hs hf hc] at h
          exact hpack (ih _ _ h)
      · rw [intervalRun_cons_fail intervalNs c w e rest hs hf] at h
        exact hpack (ih _ _ h)
    · rcases selectCancelObserved_requested c w e hs with hh | hh
      · exact Or.inl hh
      · right
        simp [hh]

theorem cronRun_cancel_only_requested :
    ∀ (ds : List Int) (es : List CronTickEnv) (c : Bool),
      (cronRun c ds es).2 = true →
      c = true ∨ es.any (fun e => e.cancelHere.isSome) = true := by
  intro ds
  induction ds with
  | nil => intro es c h; exact Or.inl h
  | cons d ds ih =>
    intro es c h
    cases es with
    | nil => exact Or.inl h
    | cons e es =>
      have hpack : (c || e.cancelHere.isSome) = true ∨
          es.any (fun x => x.cancelHere.isSome) = true →
          c = true ∨ (e :: es).any (fun x => x.cancelHere.isSome) = true := by
        intro hor
        rcases hor with hor | hor
        · rcases Bool.or_eq_true_iff.mp hor with hh | hh
          · exact Or.inl hh
          · right
            simp [hh]
        · right
          simp [hor]
      rcases le_or_lt (d - e.nowNs) 0 with hd | hd
      · rw [cronRun_skip c d ds e es hd] at h
        exact hpack (ih _ _ h)
      · cases hobs : cronSelectCancelObserved c e
        · rw [cronRun_future_exec c d ds e es hd hobs] at h
          exact hpack (ih _ _ h)
        · rcases cronSelectCancelObserved_requested c e hobs with hh | hh
          · exact Or.inl hh
          · right
            simp [hh]

theorem intervalRun_wellNested (intervalNs : Nat) :
    ∀ (envs : List TickEnv) (c : Bool) (w : Nat),
      wellNestedI 0 (intervalRun intervalNs c w envs).1 = true := by
  intro envs
  induction envs with
  | nil => intro c w; rfl
  | cons e rest ih =>
    intro c w
    cases hs : selectCancelObserved c w e
    · cases hf : e.execFails
      · rcases Nat.lt_or_ge maxTimeDeltaNs (nextWait intervalNs e.elapsedNs) with hc | hc
        · rw [intervalRun_cons_panic intervalNs c w e rest hs hf hc]
          rfl
        · rw [intervalRun_cons_ok intervalNs c w e rest hs hf hc]
          simp [wellNestedI, ih]
      · rw [intervalRun_cons_fail intervalNs c w e rest hs hf]
        simp [wellNestedI, ih]
    · rw [intervalRun_cons_observed intervalNs c w e rest hs]
      rfl

theorem cronRun_wellNested :
    ∀ (ds : List Int) (es : List CronTickEnv) (c : Bool),
      wellNestedC 0 (cronRun c ds es).1 = true := by
  intro ds
  induction ds with
  | nil => intro es c; rfl
  | cons d ds ih =>
    intro es c
    cases es with
    | nil => rfl
    | cons e es =>
      rcases le_or_lt (d - e.nowNs) 0 with hd | hd
      · rw [cronRun_skip c d ds e es hd]
        simp [wellNestedC, ih]
      · cases hobs : cronSelectCancelObserved c e
        · rw [cronRun_future_exec c d ds e es hd hobs]
          simp [wellNestedC, ih]
        · rw [cronRun_future_stop c d ds e es hd hobs]
          rfl

theorem intervalRun_no_panic (intervalNs : Nat)
    (hbound : intervalNs ≤ maxTimeDeltaNs) :
    ∀ (envs : List TickEnv) (c : Bool) (w : Nat),
      IEvent.panicked ∉ (intervalRun intervalNs c w envs).1 := by
  intro envs
  induction envs with
  | nil => intro c w; simp [intervalRun]
  | cons e rest ih =>
    intro c w
    have hc : nextWait intervalNs e.elapsedNs ≤ maxTimeDeltaNs :=
      le_trans (Nat.sub_le intervalNs e.elapsedNs) hbound
    cases hs : selectCancelObserved c w e
    · cases hf : e.execFails
      · rw [intervalRun_cons_ok intervalNs c w e rest hs hf hc]
        simp only [List.mem_cons]
        intro h
        rcases h with h | h | h
        · cases h
        · cases h
        · exact ih _ _ h
      · rw [intervalRun_cons_fail intervalNs c w e rest hs hf]
        simp only [List.mem_cons]
        intro h
        rcases h with h | h | h
        · cases h
        · cases h
        · exact ih _ _ h
    · rw [intervalRun_cons_observed intervalNs c w e rest hs]
      simp

theorem cronRun_no_panic :
    ∀ (ds : List Int) (es : List CronTickEnv) (c : Bool),
      CEvent.panicked ∉ (cronRun c ds es).1 := by
  intro ds
  induction ds with
  | nil => intro es c; simp [cronRun]
  | cons d ds ih =>
    intro es c
    cases es with
    | nil => simp [cronRun]
    | cons e es =>
      rcases le_or_lt (d - e.nowNs) 0 with hd | hd
      · rw [cronRun_skip c d ds e es hd]
        simp only [List.mem_cons]
        intro h
        rcases h with h | h
        · cases h
        · exact ih _ _ h
      · cases hobs : cronSelectCancelObserved c e
        · rw [cronRun_future_exec c d ds e es hd hobs]
          simp only [List.mem_cons]
          intro h
          rcases h with h | h | h
          · cases h
          · cases h
          · exact ih _ _ h
        · rw [cronRun_future_stop c d ds e es hd hobs]
          simp

theorem cronRun_tickStart_future :
    ∀ (ds : List Int) (es : List CronTickEnv) (c : Bool) (i : Int),
      CEvent.tickStart i ∈ (cronRun c ds es).1 →
      ∃ e ∈ es, e.nowNs < i := by
  intro ds
  induction ds with
  | nil => intro es c i h; simp [cronRun] at h
  | cons d ds ih =>
    intro es c i h
    cases es with
    | nil => simp [cronRun] at h
    | cons e es =>
      rcases le_or_lt (d - e.nowNs) 0 with hd | hd
      · rw [cronRun_skip c d ds e es hd] at h
        simp only [List.mem_cons] at h
        rcases h with h | h
        · cases h
        · obtain ⟨x, hx, hlt⟩ := ih _ _ _ h
          exact ⟨x, List.mem_cons_of_mem e hx, hlt⟩
      · cases hobs : cronSelectCancelObserved c e
        · rw [cronRun_future_exec c d ds e es hd hobs] at h
          simp only [List.mem_cons] at h
          rcases h with h | h | h
          · cases h
            exact ⟨e, List.mem_cons_self e es, by omega⟩
          · cases h
          · obtain ⟨x, hx, hlt⟩ := ih _ _ _ h
            exact ⟨x, List.mem_cons_of_mem e hx, hlt⟩
        · rw [cronRun_future_stop c d ds e es hd hobs] at h
          simp at h

theorem isAncestorOf_append_self :
    ∀ (p r : List Nat), CancellationToken.isAncestorOf p (p ++ r) = true := by
  intro p
  induction p with
  | nil => intro r; rfl
  | cons a p ih => intro r; simp [CancellationToken.isAncestorOf, ih]

theorem is_cancelled_cancel (s : CancellationToken.State) (p x : List Nat) :
    CancellationToken.is_cancelled (CancellationToken.cancel s p) x =
      (CancellationToken.isAncestorOf p x || CancellationToken.is_cancelled s x) := by
  simp [CancellationToken.is_cancelled, CancellationToken.cancel, List.any_cons]

theorem is_cancelled_mono :
    ∀ (ops : List (List Nat)) (s : CancellationToken.State) (t : List Nat),
      CancellationToken.is_cancelled s t = true →
      CancellationToken.is_cancelled (CancellationToken.applyCancels s ops) t = true := by
  intro ops
  induction ops with
  | nil => intro s t h; exact h
  | cons o ops ih =>
    intro s t h
    have h2 : CancellationToken.is_cancelled (CancellationToken.cancel s o) t = true := by
      rw [is_cancelled_cancel]
      simp [h]
    exact ih _ _ h2

/-- C1: in interval mode, after every tick the schedule survives (successful,
or failed with the loop continuing), the next wait is
`interval.saturating_sub(elapsed)` (lib.rs:136, lib.rs:142): it equals the
nominal interval minus the elapsed execution time when `elapsed < interval`
(and is then positive), equals zero when `elapsed >= interval` (one immediate
re-fire), and is a natural number, hence never negative.  The run equation
shows the whole future of the loop is a function of the interval, the
cancellation flag and the freshly computed wait alone — no backlog of missed
ticks is carried, so an overrun yields exactly the single zero-wait tick and
never several queued catch-up firings; the tick itself emits exactly one
execution start. -/
theorem C1_interval_drift_correction (intervalNs : Nat) (c : Bool) (w : Nat)
    (e : TickEnv) (rest : List TickEnv)
    (hsurv : selectCancelObserved c w e = false)
    (hconv : e.execFails = true ∨ nextWait intervalNs e.elapsedNs ≤ maxTimeDeltaNs) :
    intervalRun intervalNs c w (e :: rest) =
      (IEvent.tickStart w :: IEvent.execEnd (!e.execFails) e.elapsedNs ::
        (intervalRun intervalNs (c || e.cancelHere.isSome)
          (nextWait intervalNs e.elapsedNs) rest).1,
       (intervalRun intervalNs (c || e.cancelHere.isSome)
          (nextWait intervalNs e.elapsedNs) rest).2) ∧
    (e.elapsedNs < intervalNs →
      nextWait intervalNs e.elapsedNs = intervalNs - e.elapsedNs ∧
      0 < nextWait intervalNs e.elapsedNs) ∧
    (intervalNs ≤ e.elapsedNs → nextWait intervalNs e.elapsedNs = 0) ∧
    countTickStartsI (intervalRun intervalNs c w (e :: rest)).1 =
      countTickStartsI (intervalRun intervalNs (c || e.cancelHere.isSome)
        (nextWait intervalNs e.elapsedNs) rest).1 + 1 := by
  have heq : intervalRun intervalNs c w (e :: rest) =
      (IEvent.tickStart w :: IEvent.execEnd (!e.execFails) e.elapsedNs ::
        (intervalRun intervalNs (c || e.cancelHere.isSome)
          (nextWait intervalNs e.elapsedNs) rest).1,
       (intervalRun intervalNs (c || e.cancelHere.isSome)
          (nextWait intervalNs e.elapsedNs) rest).2) := by
    cases hf : e.execFails
    · rcases hconv with hconv | hconv
      · rw [hf] at hconv
        cases hconv
      · rw [intervalRun_cons_ok intervalNs c w e rest hsurv hf hconv]
        rfl
    · rw [intervalRun_cons_fail intervalNs c w e rest hsurv hf]
      rfl
  refine ⟨heq, ?_, ?_, ?_⟩
  · intro hlt
    unfold nextWait
    omega
  · intro hge
    unfold nextWait
    omega
  · rw [heq]
    simp [countTickStartsI]

/-- C1 witness: a concrete overrunning tick (interval 50ns, execution 80ns)
whose next wait is zero. -/
theorem C1_interval_drift_correction_witness :
    selectCancelObserved false 0 ⟨none, false, false, 80⟩ = false ∧
    (intervalRun 50 false 0 [⟨none, false, false, 80⟩]).1 =
      [IEvent.tickStart 0, IEvent.execEnd true 80] ∧
    nextWait 50 80 = 0 := by
  have h := C1_interval_drift_correction 50 false 0 ⟨none, false, false, 80⟩ []
    (by decide) (Or.inr (by decide))
  refine ⟨by decide, ?_, h.2.2.1 (by decide)⟩
  rw [h.1]
  decide

/-- C2 counterexample: the failure policy is not selectable — it is hardcoded.
A failing tick in interval mode (lib.rs:134-139) logs and continues with the
next tick, and the root token ends uncancelled; the cron loop (lib.rs:88-91)
does the same.  There is no `ContinueOnError`/`CancelOnError` option anywhere
in the crate's API (the entry points take only the timing spec and the
drifter), and no environment makes the loops cancel the root token on
failure, so the cancel-on-error behaviour is unobtainable. -/
theorem C2_counterexample :
    (intervalRun 100 false 0 [⟨none, false, true, 30⟩, ⟨none, false, false, 10⟩]).1 =
      [IEvent.tickStart 0, IEvent.execEnd false 30,
       IEvent.tickStart 70, IEvent.execEnd true 10] ∧
    (intervalRun 100 false 0 [⟨none, false, true, 30⟩, ⟨none, false, false, 10⟩]).2 = false ∧
    (cronRun false [10, 20] [⟨5, none, true, 2⟩, ⟨12, none, false, 2⟩]).1 =
      [CEvent.tickStart 10, CEvent.execEnd false 2,
       CEvent.tickStart 20, CEvent.execEnd true 2] ∧
    (cronRun false [10, 20] [⟨5, none, true, 2⟩, ⟨12, none, false, 2⟩]).2 = false := by
  decide

/-- C2 amended: the behaviour on a failed execution is hardcoded to
log-and-continue in both the interval and the cron loop; no configuration
option selects cancel-on-error.  A surviving failed interval tick continues
with `wait = interval.saturating_sub(elapsed)`; a surviving failed cron tick
continues with the following instant; and in either mode the loop itself
never cancels the root token — the final cancelled flag can only be true if
the caller requested cancellation. -/
theorem C2_failure_policy_hardcoded (intervalNs : Nat) (c : Bool) (w : Nat)
    (e : TickEnv) (rest : List TickEnv)
    (hs : selectCancelObserved c w e = false) (hf : e.execFails = true) :
    intervalRun intervalNs c w (e :: rest) =
      (IEvent.tickStart w :: IEvent.execEnd false e.elapsedNs ::
        (intervalRun intervalNs (c || e.cancelHere.isSome)
          (nextWait intervalNs e.elapsedNs) rest).1,
       (intervalRun intervalNs (c || e.cancelHere.isSome)
          (nextWait intervalNs e.elapsedNs) rest).2) ∧
    (∀ (d : Int) (ds : List Int) (e2 : CronTickEnv) (es : List CronTickEnv) (c2 : Bool),
      e2.execFails = true → 0 < d - e2.nowNs →
      cronSelectCancelObserved c2 e2 = false →
      cronRun c2 (d :: ds) (e2 :: es) =
        (CEvent.tickStart d :: CEvent.execEnd false e2.elapsedNs ::
          (cronRun (c2 || e2.cancelHere.isSome) ds es).1,
         (cronRun (c2 || e2.cancelHere.isSome) ds es).2)) ∧
    (∀ (envs : List TickEnv) (c3 : Bool) (w3 : Nat),
      (intervalRun intervalNs c3 w3 envs).2 = true →
      c3 = true ∨ envs.any (fun x => x.cancelHere.isSome) = true) ∧
    (∀ (ds : List Int) (es : List CronTickEnv) (c4 : Bool),
      (cronRun c4 ds es).2 = true →
      c4 = true ∨ es.any (fun x => x.cancelHere.isSome) = true) := by
  refine ⟨intervalRun_cons_fail intervalNs c w e rest hs hf, ?_, ?_, ?_⟩
  · intro d ds e2 es c2 hf2 hd hobs
    have h := cronRun_future_exec c2 d ds e2 es hd hobs
    rw [hf2] at h
    exact h
  · intro envs c3 w3 h
    exact intervalRun_cancel_only_requested intervalNs envs c3 w3 h
  · intro ds es c4 h
    exact cronRun_cancel_only_requested ds es c4 h

/-- C2 amended witness: a concrete failing interval tick that continues. -/
theorem C2_failure_policy_hardcoded_witness :
    (intervalRun 100 false 0 [⟨none, false, true, 30⟩]).1 =
      [IEvent.tickStart 0, IEvent.execEnd false 30] := by
  have h := C2_failure_policy_hardcoded 100 false 0 ⟨none, false, true, 30⟩ []
    (by decide) (by decide)
  rw [h.1]
  decide

/-- C3: a cron parse failure is returned synchronously by
`schedule_drifter_cron` (and its sugar `schedule_cron`), with an empty effect
list — no background loop is ever spawned; a successful parse spawns exactly
the cron loop and returns the fresh root token; and the interval entry points
`schedule_drifter` and `schedule` return a token unconditionally — their
return type carries no error, so interval schedule creation cannot fail. -/
theorem C3_cron_parse_errors_synchronous
    (parse : String → Except ParseError CronSched) (cron : String) :
    (∀ err, parse cron = Except.error err →
      schedule_drifter_cron parse cron = ([], Except.error err) ∧
      schedule_cron parse cron = ([], Except.error err)) ∧
    (∀ s, parse cron = Except.ok s →
      schedule_drifter_cron parse cron =
        ([Effect.spawnCronLoop s.instants], Except.ok { is_cancelled := false }) ∧
      schedule_cron parse cron =
        ([Effect.spawnCronLoop s.instants], Except.ok { is_cancelled := false })) ∧
    (∀ intervalNs : Nat,
      schedule_drifter intervalNs =
        ([Effect.spawnIntervalLoop intervalNs], { is_cancelled := false }) ∧
      schedule intervalNs =
        ([Effect.spawnIntervalLoop intervalNs], { is_cancelled := false })) := by
  refine ⟨?_, ?_, ?_⟩
  · intro err h
    constructor
    · simp [schedule_drifter_cron, h]
    · simp [schedule_cron, schedule_drifter_cron, h]
  · intro s h
    constructor
    · simp [schedule_drifter_cron, h]
    · simp [schedule_cron, schedule_drifter_cron, h]
  · intro i
    exact ⟨rfl, rfl⟩

/-- C3 witness: the concrete parser model rejecting a malformed expression
(no loop spawned) and accepting the every-second expression (loop spawned,
token returned); interval creation always succeeds. -/
theorem C3_cron_parse_errors_synchronous_witness :
    schedule_drifter_cron parseModel "not a cron" =
      ([], Except.error ParseError.invalidExpr) ∧
    schedule_drifter_cron parseModel "* * * * * *" =
      ([Effect.spawnCronLoop [1000000000]], Except.ok { is_cancelled := false }) ∧
    schedule_drifter 50 = ([Effect.spawnIntervalLoop 50], { is_cancelled := false }) :=
  ⟨((C3_cron_parse_errors_synchronous parseModel "not a cron").1
      ParseError.invalidExpr rfl).1,
   ((C3_cron_parse_errors_synchronous parseModel "* * * * * *").2.1
      { instants := [1000000000] } rfl).1,
   ((C3_cron_parse_errors_synchronous parseModel "* * * * * *").2.2 50).1⟩

/-- C4: a popped fire instant strictly in the past relative to the
`Utc::now()` read at its pop is skipped (lib.rs:59-66): the iteration emits
only the diagnostic skip event and advances to the following instant, and the
work is never executed for it — any execution start in any cron trace is for
an instant that was strictly in the future at its pop. -/
theorem C4_cron_skips_past_instants (c : Bool) (d : Int) (ds : List Int)
    (e : CronTickEnv) (es : List CronTickEnv) (hpast : d < e.nowNs) :
    cronRun c (d :: ds) (e :: es) =
      (CEvent.skippedPast d :: (cronRun (c || e.cancelHere.isSome) ds es).1,
       (cronRun (c || e.cancelHere.isSome) ds es).2) ∧
    (∀ (c2 : Bool) (ds2 : List Int) (es2 : List CronTickEnv) (i : Int),
      CEvent.tickStart i ∈ (cronRun c2 ds2 es2).1 → ∃ x ∈ es2, x.nowNs < i) :=
  ⟨cronRun_skip c d ds e es (by omega),
   fun c2 ds2 es2 i h => cronRun_tickStart_future ds2 es2 c2 i h⟩

/-- C4 witness: instant 5 popped at now = 10 is skipped without execution. -/
theorem C4_cron_skips_past_instants_witness :
    (cronRun false [5] [⟨10, none, false, 1⟩]).1 = [CEvent.skippedPast 5] := by
  have h := C4_cron_skips_past_instants false 5 [] ⟨10, none, false, 1⟩ []
    (by decide)
  rw [h.1]
  decide

/-- C5 counterexample to "cancellation requested during an in-flight
execution prevents every subsequent tick": interval 5ns; tick 0 overruns
(elapsed 7ns), so the next wait is zero, and cancellation is requested during
tick 0's execution.  At the next `tokio::select!` both branches are ready at
the first poll (`cancelled()` because the token is cancelled, the zero-length
sleep because its deadline has passed), and the unbiased select polls the
branches in random order; when the sleep branch is polled first (tie bit
false), tick 1 executes even though cancellation was already requested — two
execution starts appear in the trace. -/
theorem C5_counterexample :
    (intervalRun 5 false 0
      [⟨some CancelPoint.duringExec, false, false, 7⟩, ⟨none, false, false, 1⟩]).1 =
      [IEvent.tickStart 0, IEvent.execEnd true 7,
       IEvent.tickStart 0, IEvent.execEnd true 1] ∧
    countTickStartsI (intervalRun 5 false 0
      [⟨some CancelPoint.duringExec, false, false, 7⟩, ⟨none, false, false, 1⟩]).1 = 2 := by
  decide

/-- C5 amended: every tick races cancellation against the sleep; if the
select observes cancellation, the loop exits, that tick's execution never
starts and no further tick runs.  An execution that starts always runs to
completion — its end event immediately follows its start, in every surviving
branch.  Once cancellation has been requested, every select whose wait is
positive observes it, so cancellation during an in-flight execution prevents
every subsequent tick except in the zero-wait case (execution overran the
interval), where the unbiased select tie may let at most the ticks whose tie
resolves to the sleep start before cancellation is observed.  In cron mode
the sleep is always positive, so a requested cancellation always stops the
loop at the next future instant. -/
theorem C5_cancellation_race (intervalNs : Nat) (c : Bool) (w : Nat)
    (e : TickEnv) (rest : List TickEnv)
    (hobs : selectCancelObserved c w e = true) :
    intervalRun intervalNs c w (e :: rest) = ([IEvent.stopped], true) ∧
    (∀ (c1 : Bool) (w1 : Nat) (e1 : TickEnv) (r1 : List TickEnv),
      selectCancelObserved c1 w1 e1 = false →
      (intervalRun intervalNs c1 w1 (e1 :: r1)).1.take 2 =
        [IEvent.tickStart w1, IEvent.execEnd (!e1.execFails) e1.elapsedNs]) ∧
    (∀ (w2 : Nat) (e2 : TickEnv) (r2 : List TickEnv), 0 < w2 →
      intervalRun intervalNs true w2 (e2 :: r2) = ([IEvent.stopped], true)) ∧
    (∀ (d : Int) (ds : List Int) (e3 : CronTickEnv) (es : List CronTickEnv),
      0 < d - e3.nowNs →
      cronRun true (d :: ds) (e3 :: es) = ([CEvent.stopped], true)) := by
  refine ⟨intervalRun_cons_observed intervalNs c w e rest hobs, ?_, ?_, ?_⟩
  · intro c1 w1 e1 r1 hs
    cases hf : e1.execFails
    · rcases Nat.lt_or_ge maxTimeDeltaNs (nextWait intervalNs e1.elapsedNs) with hc | hc
      · rw [intervalRun_cons_panic intervalNs c1 w1 e1 r1 hs hf hc]
        rfl
      · rw [intervalRun_cons_ok intervalNs c1 w1 e1 r1 hs hf hc]
        rfl
    · rw [intervalRun_cons_fail intervalNs c1 w1 e1 r1 hs hf]
      rfl
  · intro w2 e2 r2 hw
    exact intervalRun_cons_observed intervalNs true w2 e2 r2
      (selectCancelObserved_of_requested_pos true w2 e2 rfl hw)
  · intro d ds e3 es hd
    exact cronRun_future_stop true d ds e3 es hd (by simp [cronSelectCancelObserved])

/-- C5 amended witness: an already-requested cancellation with a positive
wait is observed and stops the loop before the execution starts. -/
theorem C5_cancellation_race_witness :
    intervalRun 50 true 10 [⟨none, false, false, 1⟩] = ([IEvent.stopped], true) :=
  (C5_cancellation_race 50 true 10 ⟨none, false, false, 1⟩ [] (by decide)).1

/-- C6: executions of a single schedule are strictly serialized in both
modes: in every trace either loop can produce, execution starts and ends are
well nested with never more than one execution in flight — the loop emits the
end of execution n before the start of execution n+1, because the `.await` of
the execution call completes before the next loop iteration begins. -/
theorem C6_at_most_one_execution_in_flight (intervalNs : Nat) (c c2 : Bool)
    (w : Nat) (envs : List TickEnv) (ds : List Int) (es : List CronTickEnv) :
    wellNestedI 0 (intervalRun intervalNs c w envs).1 = true ∧
    wellNestedC 0 (cronRun c2 ds es).1 = true :=
  ⟨intervalRun_wellNested intervalNs envs c w, cronRun_wellNested ds es c2⟩

/-- C7: the interval loop starts with `wait = Duration::default()`
(lib.rs:117), i.e. zero, so the very first tick's wait is zero and — unless
cancellation is observed at the very first select — the first event of the
trace is an execution start with wait zero: the work fires immediately after
schedule creation, before any interval has elapsed. -/
theorem C7_first_tick_immediate (intervalNs : Nat) (c : Bool) (e : TickEnv)
    (envs : List TickEnv) (hs : selectCancelObserved c 0 e = false) :
    intervalLoop intervalNs c (e :: envs) = intervalRun intervalNs c 0 (e :: envs) ∧
    (intervalLoop intervalNs c (e :: envs)).1.head? = some (IEvent.tickStart 0) := by
  refine ⟨rfl, ?_⟩
  unfold intervalLoop
  cases hf : e.execFails
  · rcases Nat.lt_or_ge maxTimeDeltaNs (nextWait intervalNs e.elapsedNs) with hc | hc
    · rw [intervalRun_cons_panic intervalNs c 0 e envs hs hf hc]
      rfl
    · rw [intervalRun_cons_ok intervalNs c 0 e envs hs hf hc]
      rfl
  · rw [intervalRun_cons_fail intervalNs c 0 e envs hs hf]
    rfl

/-- C7 witness: a concrete schedule whose first event is an immediate
execution start. -/
theorem C7_first_tick_immediate_witness :
    (intervalLoop 50 false [⟨none, false, false, 1⟩]).1.head? =
      some (IEvent.tickStart 0) :=
  (C7_first_tick_immediate 50 false ⟨none, false, false, 1⟩ [] (by decide)).2

/-- C8: in the cancellation-token tree (modelled from the spec, section 4.1:
the implementation is the external tokio_util crate), cancelling a token
cancels all of its current and future descendants (every path extending the
cancelled one observes cancellation); cancelling a token never makes a
non-descendant — its parent, any ancestor, or a sibling schedule's token —
observe cancellation; and the cancelled state is monotonic: once a token
observes cancellation, it still observes it after any further sequence of
cancel calls. -/
theorem C8_token_tree_cancellation (s : CancellationToken.State)
    (p q r : List Nat) (ops : List (List Nat))
    (hanc : CancellationToken.isAncestorOf p q = false)
    (hq : CancellationToken.is_cancelled s q = false) :
    CancellationToken.is_cancelled (CancellationToken.cancel s p) (p ++ r) = true ∧
    CancellationToken.is_cancelled (CancellationToken.cancel s p) q = false ∧
    (∀ t : List Nat, CancellationToken.is_cancelled s t = true →
      CancellationToken.is_cancelled (CancellationToken.applyCancels s ops) t = true) := by
  refine ⟨?_, ?_, ?_⟩
  · rw [is_cancelled_cancel]
    simp [isAncestorOf_append_self]
  · rw [is_cancelled_cancel]
    simp [hanc, hq]
  · intro t h
    exact is_cancelled_mono ops s t h

/-- C8 witness: cancelling the child `[0]` cancels its descendant `[0, 2]`
but not the sibling `[1]`, and cancellation survives later cancel calls. -/
theorem C8_token_tree_cancellation_witness :
    CancellationToken.is_cancelled (CancellationToken.cancel [] [0]) ([0] ++ [2]) = true ∧
    CancellationToken.is_cancelled (CancellationToken.cancel [] [0]) [1] = false ∧
    (∀ t : List Nat, CancellationToken.is_cancelled [] t = true →
      CancellationToken.is_cancelled
        (CancellationToken.applyCancels [] [[0, 1], [3]]) t = true) :=
  C8_token_tree_cancellation [] [0] [1] [2] [[0, 1], [3]] (by decide) (by decide)

/-- C9 counterexample: the interval-mode logging conversion
`TimeDelta::from_std(wait).expect(..)` (lib.rs:145) is not panic-free for
every tick: with an interval one nanosecond beyond `TimeDelta::MAX`
(`i64::MAX` milliseconds) and an instantaneous successful execution, the
computed wait exceeds the chrono range, the conversion fails, and the
`.expect` panics the background task after the first successful tick. -/
theorem C9_counterexample :
    (intervalRun (maxTimeDeltaNs + 1) false 0 [⟨none, false, false, 0⟩]).1 =
      [IEvent.tickStart 0, IEvent.execEnd true 0, IEvent.panicked] ∧
    timeDeltaFromStd (nextWait (maxTimeDeltaNs + 1) 0) = none := by
  constructor
  · rw [intervalRun_cons_panic (maxTimeDeltaNs + 1) false 0 ⟨none, false, false, 0⟩ []
      (by decide) (by decide) (by decide)]
  · decide

/-- C9 amended: no failure inside a running loop escapes the loop, provided
the configured interval does not exceed `TimeDelta::MAX`: under that bound
the interval loop never panics on its logging conversion (the wait is at most
the interval); the cron loop never panics at all, because `diff.to_std()` is
only reached after the positivity guard and a positive time delta always
converts; and a failed execution is handled inside the loop — the failing
interval tick continues with the recomputed wait (and its branch performs no
conversion at all). -/
theorem C9_failures_contained (intervalNs : Nat)
    (hbound : intervalNs ≤ maxTimeDeltaNs) :
    (∀ (c : Bool) (w : Nat) (envs : List TickEnv),
      IEvent.panicked ∉ (intervalRun intervalNs c w envs).1) ∧
    (∀ (c : Bool) (ds : List Int) (es : List CronTickEnv),
      CEvent.panicked ∉ (cronRun c ds es).1) ∧
    (∀ d now : Int, 0 < d - now → timeDeltaToStd (d - now) = some (d - now).toNat) ∧
    (∀ (c : Bool) (w : Nat) (e : TickEnv) (rest : List TickEnv),
      selectCancelObserved c w e = false → e.execFails = true →
      intervalRun intervalNs c w (e :: rest) =
        (IEvent.tickStart w :: IEvent.execEnd false e.elapsedNs ::
          (intervalRun intervalNs (c || e.cancelHere.isSome)
            (nextWait intervalNs e.elapsedNs) rest).1,
         (intervalRun intervalNs (c || e.cancelHere.isSome)
            (nextWait intervalNs e.elapsedNs) rest).2)) := by
  refine ⟨?_, ?_, ?_, ?_⟩
  · intro c w envs
    exact intervalRun_no_panic intervalNs hbound envs c w
  · intro c ds es
    exact cronRun_no_panic ds es c
  · intro d now h
    have h2 : ¬ (d - now < 0) := by omega
    simp [timeDeltaToStd, h2]
  · intro c w e rest hs hf
    exact intervalRun_cons_fail intervalNs c w e rest hs hf

/-- C9 amended witness: with a 50ns interval, a trace containing a failure
has no panic, and a concrete positive cron delta converts successfully. -/
theorem C9_failures_contained_witness :
    IEvent.panicked ∉ (intervalRun 50 false 0 [⟨none, false, true, 80⟩]).1 ∧
    timeDeltaToStd ((10 : Int) - 3) = some ((10 : Int) - 3).toNat := by
  have h := C9_failures_contained 50 (by decide)
  exact ⟨h.1 false 0 [⟨none, false, true, 80⟩], h.2.2.1 10 3 (by decide)⟩

/-- C10: when the sequence of upcoming fire instants is exhausted, the cron
loop's `for` simply ends (lib.rs:55-99): the task returns without cancelling
the root token, so the caller's token remains uncancelled forever unless the
caller itself calls cancel — the final cancelled state of the root token can
only be true if cancellation was explicitly requested. -/
theorem C10_cron_exhaustion_leaves_token_uncancelled (ds : List Int)
    (es : List CronTickEnv) (hnone : ∀ e ∈ es, e.cancelHere = none) :
    (cronRun false ds es).2 = false ∧
    (∀ c, (cronRun c ds es).2 = true →
      c = true ∨ es.any (fun e => e.cancelHere.isSome) = true) := by
  have hany : es.any (fun e => e.cancelHere.isSome) = false := by
    rw [List.any_eq_false]
    intro x hx
    simp [hnone x hx]
  constructor
  · cases hfin : (cronRun false ds es).2
    · rfl
    · rcases cronRun_cancel_only_requested ds es false hfin with hh | hh
      · cases hh
      · rw [hany] at hh
        cases hh
  · intro c h
    exact cronRun_cancel_only_requested ds es c h

/-- C10 witness: a schedule whose only instant is already past runs to
exhaustion (one skip event, then the loop ends) with the token uncancelled. -/
theorem C10_cron_exhaustion_leaves_token_uncancelled_witness :
    (cronRun false [5] [⟨10, none, false, 1⟩]).2 = false :=
  (C10_cron_exhaustion_leaves_token_uncancelled [5] [⟨10, none, false, 1⟩]
    (by decide)).1
